import Mathlib

/-!
Shallow embedding of the c-json pull decoder (src/src/c-json.c).

The input buffer is modelled as a `List Nat` of byte values; the C code's
null terminator is modelled by the end of the list: every comparison of
`*p` is expressed through `cur`, which yields 0 at the end of the list,
exactly as dereferencing the terminator does in C.  A 0 byte in the middle
of the list behaves like the terminator in every modelled function, since
no function ever skips a byte it does not recognise.

The `CJson` struct's fields are carried over one for one; the borrowed
`input` pointer is dropped because no modelled behaviour reads it (it is
only used by an assertion in `c_json_begin_read`).  Output strings are
`List Nat` of bytes instead of a `memstream`; stream/allocation failures
(`-ENOTRECOVERABLE`, `-ENOMEM`) cannot occur in the model and are not
modelled.  After an operation poisons the instance, the exact cursor
position is unobservable in the C code (every later operation short
circuits on `poison` before touching `p`), so on some failure paths the
model keeps the pre-call cursor where the C code had already moved it.
-/

/-- Error codes of the library (`C_JSON_E_INVALID_JSON`,
`C_JSON_E_INVALID_TYPE`, `C_JSON_E_DEPTH_OVERFLOW`). -/
inductive CJsonError where
  | invalidJson
  | invalidType
  | depthOverflow
deriving DecidableEq, Repr

/-- The `CJson` struct: cursor suffix `p`, latched error `poison`
(`none` encodes the C value 0), capacity `nStates` (`max_depth`),
current `level` and the per-level state bytes `states`
(0 = root, 0x5B = `[`, 0x2C = `,`, 0x7B = `\x7b`, 0x3A = `:`). -/
structure CJson where
  p : List Nat
  poison : Option CJsonError
  nStates : Nat
  level : Nat
  states : List Nat
deriving DecidableEq, Repr

/-- Dereference the cursor: first byte, or 0 (the null terminator) at end
of input. -/
def cur (l : List Nat) : Nat := l.headD 0

/-- JSON insignificant whitespace accepted by `skip_space`. -/
def isJsonSpace (b : Nat) : Bool := b = 0x20 || b = 0x09 || b = 0x0A || b = 0x0D

/-- The function `skip_space`: advance over insignificant whitespace. -/
def skip_space (l : List Nat) : List Nat := l.dropWhile isJsonSpace

/-- Record an error in `poison` (the C idiom `json->poison = err`). -/
def setPoison (j : CJson) (e : CJsonError) : CJson := { j with poison := some e }

/-- The function `c_json_advance`: move `p` to the start of the next value after a value
has been read, updating the current level's state byte.  Mirrors the C
switch on `states[level]`. -/
def c_json_advance (j : CJson) : CJson × Option CJsonError :=
  match j.poison with
  | some e => (j, some e)
  | none =>
    let p1 := skip_space j.p
    let s := j.states.getD j.level 0
    if s = 0x5B then        -- '['
      if cur p1 = 0x2C then
        ({ j with p := skip_space p1.tail, states := j.states.set j.level 0x2C }, none)
      else if cur p1 = 0x5D then ({ j with p := p1 }, none)
      else ({ j with p := p1, poison := some .invalidJson }, some .invalidJson)
    else if s = 0x2C then   -- ','
      if cur p1 = 0x2C then ({ j with p := skip_space p1.tail }, none)
      else if cur p1 = 0x5D then
        ({ j with p := p1, states := j.states.set j.level 0x5B }, none)
      else ({ j with p := p1, poison := some .invalidJson }, some .invalidJson)
    else if s = 0x7B then   -- object, awaiting ':'
      if cur p1 = 0x3A then
        ({ j with p := skip_space p1.tail, states := j.states.set j.level 0x3A }, none)
      else ({ j with p := p1, poison := some .invalidJson }, some .invalidJson)
    else if s = 0x3A then   -- object, after value
      if cur p1 = 0x2C then
        let p2 := skip_space p1.tail
        if cur p2 = 0x22 then
          ({ j with p := p2, states := j.states.set j.level 0x7B }, none)
        else
          ({ j with p := p2, states := j.states.set j.level 0x7B,
                    poison := some .invalidJson }, some .invalidJson)
      else if cur p1 = 0x7D then ({ j with p := p1 }, none)
      else ({ j with p := p1, poison := some .invalidJson }, some .invalidJson)
    else ({ j with p := p1 }, none)

/-- One hexadecimal digit of `c_json_read_utf16_unit` (cases
`0..9`, `a..f`, `A..F`). -/
def hexVal (b : Nat) : Option Nat :=
  if 0x30 ≤ b ∧ b ≤ 0x39 then some (b - 0x30)
  else if 0x61 ≤ b ∧ b ≤ 0x66 then some (b - 0x61 + 10)
  else if 0x41 ≤ b ∧ b ≤ 0x46 then some (b - 0x41 + 10)
  else none

/-- The function `c_json_read_utf16_unit`: four hex digits combined as
`d0 << 12 | d1 << 8 | d2 << 4 | d3`. -/
def utf16Unit (c1 c2 c3 c4 : Nat) : Option Nat :=
  match hexVal c1, hexVal c2, hexVal c3, hexVal c4 with
  | some d1, some d2, some d3, some d4 => some (d1 * 4096 + d2 * 256 + d3 * 16 + d4)
  | _, _, _, _ => none

/-- The function `c_json_write_utf8`: encode one code point as 1 to 4 UTF-8 bytes
(the `default: assert(0)` arm, unreachable for code points produced by the
decoder, yields `[]`). -/
def c_json_write_utf8 (cp : Nat) : List Nat :=
  if cp ≤ 0x7F then [cp]
  else if cp ≤ 0x7FF then
    [0xC0 ||| (cp >>> 6), 0x80 ||| (cp &&& 0x3F)]
  else if cp ≤ 0xFFFF then
    [0xE0 ||| (cp >>> 12), 0x80 ||| ((cp >>> 6) &&& 0x3F), 0x80 ||| (cp &&& 0x3F)]
  else if cp ≤ 0x10FFFF then
    [0xF0 ||| (cp >>> 18), 0x80 ||| ((cp >>> 12) &&& 0x3F),
     0x80 ||| ((cp >>> 6) &&& 0x3F), 0x80 ||| (cp &&& 0x3F)]
  else []

/-- The single-byte escapes of the C switch after a backslash:
`"`, `\\` and `/` map to themselves, `b f n r t` map to the control
bytes 0x08 0x0C 0x0A 0x0D 0x09; anything else is not a single-byte
escape. -/
def escByte (e : Nat) : Option Nat :=
  if e = 0x22 ∨ e = 0x5C ∨ e = 0x2F then some e
  else if e = 0x62 then some 0x08
  else if e = 0x66 then some 0x0C
  else if e = 0x6E then some 0x0A
  else if e = 0x72 then some 0x0D
  else if e = 0x74 then some 0x09
  else none

/-- The `u`-escape logic of `c_json_read_string`, applied to the bytes
after `\u`: read one `c_json_read_utf16_unit`; a high surrogate needs an
immediately following `\u` and a low surrogate, combining as
`0x10000 + (high - 0xD800) * 0x400 + (low - 0xDC00)`; a lone low
surrogate fails; every failure is `InvalidJson` in the caller (`none`
here).  Returns the code point and the number of bytes consumed (the
pointer advances of the C code: 4 for a plain unit, 10 for a pair). -/
def readUnitPair : List Nat → Option (Nat × Nat)
  | x1 :: x2 :: x3 :: x4 :: rr =>
    match utf16Unit x1 x2 x3 x4 with
    | none => none
    | some cu =>
      if 0xD800 ≤ cu ∧ cu ≤ 0xDBFF then
        match rr with
        | y1 :: y2 :: rr2 =>
          if y1 = 0x5C ∧ y2 = 0x75 then
            match rr2 with
            | z1 :: z2 :: z3 :: z4 :: _ =>
              match utf16Unit z1 z2 z3 z4 with
              | none => none
              | some cu2 =>
                if cu2 < 0xDC00 ∨ 0xDFFF < cu2 then none
                else some (0x10000 + (cu - 0xD800) * 0x400 + (cu2 - 0xDC00), 10)
            | _ => none
          else none
        | _ => none
      else if 0xDC00 ≤ cu ∧ cu ≤ 0xDFFF then none
      else some (cu, 4)
  | _ => none

/-- The scan loop of `c_json_read_string`, applied to the bytes after the
opening quote.  Returns the decoded output bytes and the input remaining
after the closing quote.  An exhausted list is the null terminator, a
control byte, hence `invalidJson`, exactly as in the C loop. -/
def stringBody : List Nat → Except CJsonError (List Nat × List Nat)
  | [] => .error .invalidJson
  | b :: rest =>
    if b = 0x22 then .ok ([], rest)
    else if b < 0x20 then .error .invalidJson
    else if b = 0x5C then
      match rest with
      | [] => .error .invalidJson
      | e :: r =>
        match escByte e with
        | some o =>
          match stringBody r with
          | .ok (out, rem) => .ok (o :: out, rem)
          | .error err => .error err
        | none =>
          if e = 0x75 then
            match readUnitPair r with
            | none => .error .invalidJson
            | some (cp, k) =>
              match stringBody (r.drop k) with
              | .ok (out, rem) => .ok (c_json_write_utf8 cp ++ out, rem)
              | .error err => .error err
          else .error .invalidJson
    else
      match stringBody rest with
      | .ok (out, rem) => .ok (b :: out, rem)
      | .error err => .error err
termination_by l => l.length
decreasing_by
  · simp; omega
  · simp [List.length_drop]; omega
  · simp

/-- A decimal digit byte. -/
def isDigitB (b : Nat) : Bool := 0x30 ≤ b ∧ b ≤ 0x39

/-- Whitespace skipped by C `strtoul` (`isspace` in the C locale). -/
def isCSpace (b : Nat) : Bool := b = 0x20 || (9 ≤ b ∧ b ≤ 13)

/-- The digit-consuming loop of `strtoul`. -/
def digitRun : List Nat → Nat → Nat × List Nat
  | b :: rest, acc =>
    if 0x30 ≤ b ∧ b ≤ 0x39 then digitRun rest (acc * 10 + (b - 0x30)) else (acc, b :: rest)
  | [], acc => (acc, [])

/-- C `strtoul(p, &end, 10)`: skip `isspace` bytes, accept one optional
sign, then a run of decimal digits.  `none` models `end == p` (no digits
converted); on overflow the value saturates at `ULONG_MAX = 2^64 - 1`
(with `errno = ERANGE`, which the caller never checks); a `-` sign negates
the value modulo `2^64`. -/
def strtoul10 (l : List Nat) : Option (Nat × List Nat) :=
  let l1 := l.dropWhile isCSpace
  if cur l1 = 0x2B then
    if isDigitB (cur l1.tail) then
      some (min (digitRun l1.tail 0).1 (2 ^ 64 - 1), (digitRun l1.tail 0).2)
    else none
  else if cur l1 = 0x2D then
    if isDigitB (cur l1.tail) then
      some ((2 ^ 64 - min (digitRun l1.tail 0).1 (2 ^ 64 - 1)) % 2 ^ 64, (digitRun l1.tail 0).2)
    else none
  else
    if isDigitB (cur l1) then
      some (min (digitRun l1 0).1 (2 ^ 64 - 1), (digitRun l1 0).2)
    else none

/-- The function `c_json_new`: zeroed struct with `max_depth + 1` state slots
(`calloc` of the flexible array), all at the root state 0. -/
def c_json_new (maxDepth : Nat) : CJson :=
  { p := [], poison := none, nStates := maxDepth, level := 0,
    states := List.replicate (maxDepth + 1) 0 }

/-- The function `c_json_begin_read`: attach a buffer and skip leading whitespace. -/
def c_json_begin_read (j : CJson) (input : List Nat) : CJson :=
  { j with p := skip_space input }

/-- The function `c_json_end_read`: report the latched error, else check that no
container is open and the input is exhausted; reset `level` and detach
the buffer, keeping `poison`. -/
def c_json_end_read (j : CJson) : CJson × Except CJsonError Unit :=
  let r : Except CJsonError Unit :=
    match j.poison with
    | some e => .error e
    | none =>
      if 0 < j.level then .error .invalidType
      else if cur j.p ≠ 0 then .error .invalidJson
      else .ok ()
  ({ j with level := 0, p := [] }, r)

/-- The function `c_json_read_null`: poison check, object-key check, then exact match
of the literal `null` and `c_json_advance`. -/
def c_json_read_null (j : CJson) : CJson × Option CJsonError :=
  match j.poison with
  | some e => (j, some e)
  | none =>
    if j.states.getD j.level 0 = 0x7B then (setPoison j .invalidType, some .invalidType)
    else if cur j.p = 0x6E then
      match j.p with
      | 0x6E :: 0x75 :: 0x6C :: 0x6C :: rest => c_json_advance { j with p := rest }
      | _ => (setPoison j .invalidJson, some .invalidJson)
    else (setPoison j .invalidType, some .invalidType)

/-- The function `c_json_read_bool`: note that, as in the C source, the object-key
check precedes the poison check, so it can overwrite an already latched
error with `invalidType`. -/
def c_json_read_bool (j : CJson) : CJson × Except CJsonError Bool :=
  if j.states.getD j.level 0 = 0x7B then (setPoison j .invalidType, .error .invalidType)
  else
    match j.poison with
    | some e => (j, .error e)
    | none =>
      if cur j.p = 0x74 then
        match j.p with
        | 0x74 :: 0x72 :: 0x75 :: 0x65 :: rest =>
          match c_json_advance { j with p := rest } with
          | (j1, some e) => (j1, .error e)
          | (j1, none) => (j1, .ok true)
        | _ => (setPoison j .invalidJson, .error .invalidJson)
      else if cur j.p = 0x66 then
        match j.p with
        | 0x66 :: 0x61 :: 0x6C :: 0x73 :: 0x65 :: rest =>
          match c_json_advance { j with p := rest } with
          | (j1, some e) => (j1, .error e)
          | (j1, none) => (j1, .ok false)
        | _ => (setPoison j .invalidJson, .error .invalidJson)
      else (setPoison j .invalidType, .error .invalidType)

/-- The function `c_json_read_u64`: poison check, object-key check, explicit rejection
of a leading `-`, then `strtoul` with `end == p` and a trailing
`.`/`e`/`E` rejected as `invalidType`. -/
def c_json_read_u64 (j : CJson) : CJson × Except CJsonError Nat :=
  match j.poison with
  | some e => (j, .error e)
  | none =>
    if j.states.getD j.level 0 = 0x7B then (setPoison j .invalidType, .error .invalidType)
    else if cur j.p = 0x2D then (setPoison j .invalidType, .error .invalidType)
    else
      match strtoul10 j.p with
      | none => (setPoison j .invalidType, .error .invalidType)
      | some (number, rest) =>
        if cur rest = 0x2E ∨ cur rest = 0x65 ∨ cur rest = 0x45 then
          (setPoison j .invalidType, .error .invalidType)
        else
          match c_json_advance { j with p := rest } with
          | (j1, some e) => (j1, .error e)
          | (j1, none) => (j1, .ok number)

/-- The function `c_json_read_string`: poison check, opening quote, scan loop, then
`c_json_advance`; the decoded bytes are returned only on full success. -/
def c_json_read_string (j : CJson) : CJson × Except CJsonError (List Nat) :=
  match j.poison with
  | some e => (j, .error e)
  | none =>
    if cur j.p ≠ 0x22 then (setPoison j .invalidType, .error .invalidType)
    else
      match stringBody j.p.tail with
      | .error e => (setPoison j e, .error e)
      | .ok (out, rem) =>
        match c_json_advance { j with p := rem } with
        | (j1, some e) => (j1, .error e)
        | (j1, none) => (j1, .ok out)

/-- The function `c_json_more`: non-consuming query.  As in the C switch, only the
states `[`, `\x7b` and `:` are inspected; the `,` state falls through to
`true`. -/
def c_json_more (j : CJson) : Bool :=
  match j.poison with
  | some _ => false
  | none =>
    if cur j.p = 0 then false
    else
      let s := j.states.getD j.level 0
      if s = 0x5B then cur j.p ≠ 0x5D
      else if s = 0x7B ∨ s = 0x3A then cur j.p ≠ 0x7D
      else true

/-- The function `c_json_open_array`: poison, object-key, `[` and depth checks, then
skip the bracket and push the array state. -/
def c_json_open_array (j : CJson) : CJson × Option CJsonError :=
  match j.poison with
  | some e => (j, some e)
  | none =>
    if j.states.getD j.level 0 = 0x7B then (setPoison j .invalidType, some .invalidType)
    else if cur j.p ≠ 0x5B then (setPoison j .invalidType, some .invalidType)
    else if j.nStates ≤ j.level then (setPoison j .depthOverflow, some .depthOverflow)
    else
      ({ j with p := skip_space j.p.tail, level := j.level + 1,
                states := j.states.set (j.level + 1) 0x5B }, none)

/-- The function `c_json_close_array`: requires an array state and a `]` at the cursor,
pops the level and advances the parent. -/
def c_json_close_array (j : CJson) : CJson × Option CJsonError :=
  match j.poison with
  | some e => (j, some e)
  | none =>
    if j.states.getD j.level 0 ≠ 0x5B ∧ j.states.getD j.level 0 ≠ 0x2C then
      (setPoison j .invalidType, some .invalidType)
    else if cur j.p ≠ 0x5D then (setPoison j .invalidJson, some .invalidJson)
    else c_json_advance { j with p := j.p.tail, level := j.level - 1 }

/-- The function `c_json_open_object`: like `c_json_open_array`, additionally requiring
the first non-whitespace byte after the brace to be `"` or the closing
brace before pushing. -/
def c_json_open_object (j : CJson) : CJson × Option CJsonError :=
  match j.poison with
  | some e => (j, some e)
  | none =>
    if j.states.getD j.level 0 = 0x7B then (setPoison j .invalidType, some .invalidType)
    else if cur j.p ≠ 0x7B then (setPoison j .invalidType, some .invalidType)
    else if j.nStates ≤ j.level then (setPoison j .depthOverflow, some .depthOverflow)
    else
      let p1 := skip_space j.p.tail
      if cur p1 ≠ 0x22 ∧ cur p1 ≠ 0x7D then
        ({ j with p := p1, poison := some .invalidJson }, some .invalidJson)
      else
        ({ j with p := p1, level := j.level + 1,
                  states := j.states.set (j.level + 1) 0x7B }, none)

/-- The function `c_json_close_object`: requires an object state and a closing brace at
the cursor, pops the level and advances the parent. -/
def c_json_close_object (j : CJson) : CJson × Option CJsonError :=
  match j.poison with
  | some e => (j, some e)
  | none =>
    if j.states.getD j.level 0 ≠ 0x7B ∧ j.states.getD j.level 0 ≠ 0x3A then
      (setPoison j .invalidType, some .invalidType)
    else if cur j.p ≠ 0x7D then (setPoison j .invalidJson, some .invalidJson)
    else c_json_advance { j with p := j.p.tail, level := j.level - 1 }

/-- The state-mutating public operations of the library.  `c_json_peek`
and `c_json_more` never mutate the instance; `c_json_read_f64` is not
modelled (its value is floating point) — its only state effects are the
same cursor move and `c_json_advance` call that `c_json_read_u64`
performs. -/
inductive CJsonOp where
  | readNull
  | readBool
  | readU64
  | readString
  | openArray
  | closeArray
  | openObject
  | closeObject
  | endRead
  | beginRead (input : List Nat)
deriving DecidableEq, Repr

/-- Apply one operation to the instance, keeping the post-state. -/
def runOp (j : CJson) : CJsonOp → CJson
  | .readNull => (c_json_read_null j).1
  | .readBool => (c_json_read_bool j).1
  | .readU64 => (c_json_read_u64 j).1
  | .readString => (c_json_read_string j).1
  | .openArray => (c_json_open_array j).1
  | .closeArray => (c_json_close_array j).1
  | .openObject => (c_json_open_object j).1
  | .closeObject => (c_json_close_object j).1
  | .endRead => (c_json_end_read j).1
  | .beginRead input => c_json_begin_read j input

/-- The structural invariant of a decoder instance: the level is within
the configured depth, the state array has its `calloc`-allocated
`max_depth + 1` slots, and slot 0 still holds the root state. -/
def DecInv (j : CJson) : Prop :=
  j.level ≤ j.nStates ∧ j.states.length = j.nStates + 1 ∧ j.states.getD 0 0 = 0

deriving instance DecidableEq for Except

/-- C1: the spec's latching discipline says that after the first error is
recorded, every subsequent call returns that identical error with no
further work.  The code violates it: `c_json_read_bool` performs its
object-key check before its poison check, so on the input
`\x7b"a"b\x7d` (open object, read the key, which latches `invalidJson`
because the byte after the key is `b`, not `:`) a subsequent
`c_json_read_bool` replaces the latched `invalidJson` with `invalidType`
and returns the new error. -/
theorem c1_read_bool_replaces_latched_error :
    (let j0 := c_json_begin_read (c_json_new 8) [0x7B, 0x22, 0x61, 0x22, 0x62, 0x7D]
     let j1 := (c_json_open_object j0).1
     let j2 := (c_json_read_string j1).1
     (c_json_open_object j0).2 = none ∧
     (c_json_read_string j1).2 = .error .invalidJson ∧
     j2.poison = some .invalidJson ∧
     (c_json_read_bool j2).2 = .error .invalidType ∧
     (c_json_read_bool j2).1.poison = some .invalidType) := by
  simp [c_json_begin_read, c_json_new, c_json_open_object, c_json_read_string,
        c_json_read_bool, c_json_advance, stringBody, escByte, readUnitPair,
        utf16Unit, hexVal, skip_space, cur, setPoison, isJsonSpace,
        List.replicate, List.getD]

/-- C2 counterexample: on the input `[1,,2]` the claimed call sequence
does not succeed.  `c_json_open_array` succeeds and the first
`c_json_read_u64` yields 1, but after `c_json_advance` consumed the first
comma the cursor rests on the second comma, where `strtoul` converts
nothing, so the second `c_json_read_u64` fails with `invalidType` instead
of yielding 2. -/
theorem c2_counterexample :
    (let j0 := c_json_begin_read (c_json_new 8) [0x5B, 0x31, 0x2C, 0x2C, 0x32, 0x5D]
     let j1 := (c_json_open_array j0).1
     let j2 := (c_json_read_u64 j1).1
     (c_json_open_array j0).2 = none ∧
     (c_json_read_u64 j1).2 = .ok 1 ∧
     (c_json_read_u64 j2).2 ≠ .ok 2 ∧
     (c_json_read_u64 j2).2 = .error .invalidType) := by
  decide

/-- C2 amended: the decoder rejects `[1,,2]`: open_array succeeds and the
first read_u64 yields 1, but the second read_u64 fails with `invalidType`
(the cursor rests on the second comma, where no digits can be parsed);
the error is latched, so close_array and end return the same
`invalidType`. -/
theorem c2_amended_rejects_double_comma :
    (let j0 := c_json_begin_read (c_json_new 8) [0x5B, 0x31, 0x2C, 0x2C, 0x32, 0x5D]
     let j1 := (c_json_open_array j0).1
     let j2 := (c_json_read_u64 j1).1
     let j3 := (c_json_read_u64 j2).1
     let j4 := (c_json_close_array j3).1
     (c_json_open_array j0).2 = none ∧
     (c_json_read_u64 j1).2 = .ok 1 ∧
     (c_json_read_u64 j2).2 = .error .invalidType ∧
     (c_json_close_array j3).2 = some .invalidType ∧
     (c_json_end_read j4).2 = .error .invalidType) := by
  decide

/-- C3: the claim says `c_json_more` is false in the states
`ArrayAwaitingValue` and `ArrayAfterValue` exactly when the cursor is at
`]`.  The code's switch has no case for the `ArrayAfterValue` state
(the `,` state byte), so on `[1,]` after reading the 1 the instance is
unpoisoned, in state `,` with the cursor at `]`, yet `c_json_more`
returns true. -/
theorem c3_more_true_after_trailing_comma :
    (let j0 := c_json_begin_read (c_json_new 8) [0x5B, 0x31, 0x2C, 0x5D]
     let j1 := (c_json_open_array j0).1
     let j2 := (c_json_read_u64 j1).1
     (c_json_read_u64 j1).2 = .ok 1 ∧
     j2.poison = none ∧
     j2.states.getD j2.level 0 = 0x2C ∧
     cur j2.p = 0x5D ∧
     c_json_more j2 = true) := by
  decide

/-- C9: a single trailing comma before `]` is accepted: on `[1,]` the
whole sequence succeeds, because `c_json_advance` consumed the comma
(state `,`, cursor at `]`) and `c_json_close_array` accepts both array
state bytes.  Objects are not lenient: on `\x7b"a":1,\x7d` the
`c_json_read_u64` that consumes the 1 fails `invalidJson`, because after
the comma the next byte must be `"`. -/
theorem c9_trailing_comma_array_only :
    (let j0 := c_json_begin_read (c_json_new 8) [0x5B, 0x31, 0x2C, 0x5D]
     let j1 := (c_json_open_array j0).1
     let j2 := (c_json_read_u64 j1).1
     let j3 := (c_json_close_array j2).1
     (c_json_open_array j0).2 = none ∧
     (c_json_read_u64 j1).2 = .ok 1 ∧
     j2.states.getD j2.level 0 = 0x2C ∧
     cur j2.p = 0x5D ∧
     (c_json_close_array j2).2 = none ∧
     (c_json_end_read j3).2 = .ok ()) ∧
    (let o0 := c_json_begin_read (c_json_new 8) [0x7B, 0x22, 0x61, 0x22, 0x3A, 0x31, 0x2C, 0x7D]
     let o1 := (c_json_open_object o0).1
     let o2 := (c_json_read_string o1).1
     (c_json_open_object o0).2 = none ∧
     (c_json_read_string o1).2 = .ok [0x61] ∧
     (c_json_read_u64 o2).2 = .error .invalidJson) := by
  simp [c_json_begin_read, c_json_new, c_json_open_object, c_json_open_array,
        c_json_read_string, c_json_read_u64, c_json_close_array, c_json_end_read,
        c_json_advance, stringBody, escByte, readUnitPair, utf16Unit, hexVal,
        skip_space, cur, setPoison, isJsonSpace, strtoul10, digitRun, isCSpace,
        isDigitB, List.replicate, List.getD]

/-- C10: `c_json_read_u64` on the 20-digit literal 18446744073709551616
(2^64, one past the largest u64) does not fail: `strtoul` saturates at
`ULONG_MAX = 2^64 - 1` and its range error is never checked, so the read
succeeds with the saturated value and the session ends cleanly. -/
theorem c10_read_u64_saturates :
    (let j0 := c_json_begin_read (c_json_new 8)
       [0x31, 0x38, 0x34, 0x34, 0x36, 0x37, 0x34, 0x34, 0x30, 0x37,
        0x33, 0x37, 0x30, 0x39, 0x35, 0x35, 0x31, 0x36, 0x31, 0x36]
     (c_json_read_u64 j0).2 = .ok (2 ^ 64 - 1) ∧
     (c_json_end_read (c_json_read_u64 j0).1).2 = .ok ()) := by
  decide

/-- Writing any slot other than slot 0 leaves slot 0 unchanged. -/
theorem getD_set_zero (l : List Nat) (i v : Nat) (h : i ≠ 0) :
    (l.set i v).getD 0 0 = l.getD 0 0 := by
  cases l with
  | nil => rfl
  | cons a t =>
    cases i with
    | zero => exact absurd rfl h
    | succ n => rfl

/-- A state write at the current level preserves the invariant whenever
the current level's state byte is not the root state (which forces the
level to be positive, since slot 0 holds the root state). -/
theorem decInv_set_current (j : CJson) (p' : List Nat) (po : Option CJsonError) (v : Nat)
    (h : DecInv j) (hs : j.states.getD j.level 0 ≠ 0) :
    DecInv (CJson.mk p' po j.nStates j.level (j.states.set j.level v)) := by
  obtain ⟨h1, h2, h3⟩ := h
  have hl : j.level ≠ 0 := fun hl => hs (by rw [hl]; exact h3)
  exact ⟨h1, by rw [List.length_set]; exact h2, by rw [getD_set_zero _ _ _ hl]; exact h3⟩

/-- The function `c_json_advance` preserves the structural invariant and the capacity. -/
theorem decInv_advance (j : CJson) (h : DecInv j) :
    DecInv (c_json_advance j).1 ∧ (c_json_advance j).1.nStates = j.nStates := by
  obtain ⟨h1, h2, h3⟩ := h
  cases hp : j.poison with
  | some e => simp only [c_json_advance, hp]; exact ⟨⟨h1, h2, h3⟩, trivial⟩
  | none =>
    simp only [c_json_advance, hp]
    split_ifs with hs1 hc1 hc2 hs2 hc3 hc4 hs3 hc5 hs4 hc6 hc7 hc8 <;>
      first
        | exact ⟨⟨h1, h2, h3⟩, rfl⟩
        | exact ⟨decInv_set_current j _ _ _ ⟨h1, h2, h3⟩ (by rw [hs1]; decide), rfl⟩
        | exact ⟨decInv_set_current j _ _ _ ⟨h1, h2, h3⟩ (by rw [hs2]; decide), rfl⟩
        | exact ⟨decInv_set_current j _ _ _ ⟨h1, h2, h3⟩ (by rw [hs3]; decide), rfl⟩
        | exact ⟨decInv_set_current j _ _ _ ⟨h1, h2, h3⟩ (by rw [hs4]; decide), rfl⟩

/-- The function `c_json_read_null` preserves the invariant and the capacity. -/
theorem decInv_read_null (j : CJson) (h : DecInv j) :
    DecInv (c_json_read_null j).1 ∧ (c_json_read_null j).1.nStates = j.nStates := by
  simp only [c_json_read_null]
  repeat' split
  all_goals first
    | exact ⟨h, rfl⟩
    | exact decInv_advance _ h

/-- The function `c_json_read_bool` preserves the invariant and the capacity. -/
theorem decInv_read_bool (j : CJson) (h : DecInv j) :
    DecInv (c_json_read_bool j).1 ∧ (c_json_read_bool j).1.nStates = j.nStates := by
  simp only [c_json_read_bool]
  repeat' split
  all_goals first
    | exact ⟨h, rfl⟩
    | exact decInv_advance _ h
    | (rename_i heq
       rw [← congrArg Prod.fst heq]
       exact decInv_advance _ h)

/-- The function `c_json_read_u64` preserves the invariant and the capacity. -/
theorem decInv_read_u64 (j : CJson) (h : DecInv j) :
    DecInv (c_json_read_u64 j).1 ∧ (c_json_read_u64 j).1.nStates = j.nStates := by
  simp only [c_json_read_u64]
  repeat' split
  all_goals first
    | exact ⟨h, rfl⟩
    | exact decInv_advance _ h
    | (rename_i heq
       rw [← congrArg Prod.fst heq]
       exact decInv_advance _ h)

/-- The function `c_json_read_string` preserves the invariant and the capacity. -/
theorem decInv_read_string (j : CJson) (h : DecInv j) :
    DecInv (c_json_read_string j).1 ∧ (c_json_read_string j).1.nStates = j.nStates := by
  simp only [c_json_read_string]
  repeat' split
  all_goals first
    | exact ⟨h, rfl⟩
    | exact decInv_advance _ h
    | (rename_i heq
       rw [← congrArg Prod.fst heq]
       exact decInv_advance _ h)

/-- The function `c_json_open_array` preserves the invariant and the capacity. -/
theorem decInv_open_array (j : CJson) (h : DecInv j) :
    DecInv (c_json_open_array j).1 ∧ (c_json_open_array j).1.nStates = j.nStates := by
  obtain ⟨h1, h2, h3⟩ := h
  simp only [c_json_open_array]
  repeat' split
  all_goals first
    | exact ⟨⟨h1, h2, h3⟩, rfl⟩
    | exact ⟨⟨by show j.level + 1 ≤ j.nStates; omega, by rw [List.length_set]; exact h2,
             by rw [getD_set_zero _ _ _ (Nat.succ_ne_zero _)]; exact h3⟩, rfl⟩

/-- The function `c_json_open_object` preserves the invariant and the capacity. -/
theorem decInv_open_object (j : CJson) (h : DecInv j) :
    DecInv (c_json_open_object j).1 ∧ (c_json_open_object j).1.nStates = j.nStates := by
  obtain ⟨h1, h2, h3⟩ := h
  simp only [c_json_open_object]
  repeat' split
  all_goals first
    | exact ⟨⟨h1, h2, h3⟩, rfl⟩
    | exact ⟨⟨by show j.level + 1 ≤ j.nStates; omega, by rw [List.length_set]; exact h2,
             by rw [getD_set_zero _ _ _ (Nat.succ_ne_zero _)]; exact h3⟩, rfl⟩

/-- The function `c_json_close_array` preserves the invariant and the capacity. -/
theorem decInv_close_array (j : CJson) (h : DecInv j) :
    DecInv (c_json_close_array j).1 ∧ (c_json_close_array j).1.nStates = j.nStates := by
  obtain ⟨h1, h2, h3⟩ := h
  simp only [c_json_close_array]
  repeat' split
  all_goals first
    | exact ⟨⟨h1, h2, h3⟩, rfl⟩
    | exact decInv_advance _ ⟨by show j.level - 1 ≤ j.nStates; omega, h2, h3⟩

/-- The function `c_json_close_object` preserves the invariant and the capacity. -/
theorem decInv_close_object (j : CJson) (h : DecInv j) :
    DecInv (c_json_close_object j).1 ∧ (c_json_close_object j).1.nStates = j.nStates := by
  obtain ⟨h1, h2, h3⟩ := h
  simp only [c_json_close_object]
  repeat' split
  all_goals first
    | exact ⟨⟨h1, h2, h3⟩, rfl⟩
    | exact decInv_advance _ ⟨by show j.level - 1 ≤ j.nStates; omega, h2, h3⟩

/-- The function `c_json_end_read` preserves the invariant and the capacity. -/
theorem decInv_end_read (j : CJson) (h : DecInv j) :
    DecInv (c_json_end_read j).1 ∧ (c_json_end_read j).1.nStates = j.nStates := by
  obtain ⟨h1, h2, h3⟩ := h
  exact ⟨⟨Nat.zero_le _, h2, h3⟩, rfl⟩

/-- The function `c_json_begin_read` preserves the invariant and the capacity. -/
theorem decInv_begin_read (j : CJson) (input : List Nat) (h : DecInv j) :
    DecInv (c_json_begin_read j input) ∧ (c_json_begin_read j input).nStates = j.nStates :=
  ⟨h, rfl⟩

/-- Every modelled operation preserves the invariant and the capacity. -/
theorem decInv_runOp (j : CJson) (op : CJsonOp) (h : DecInv j) :
    DecInv (runOp j op) ∧ (runOp j op).nStates = j.nStates := by
  cases op with
  | readNull => exact decInv_read_null j h
  | readBool => exact decInv_read_bool j h
  | readU64 => exact decInv_read_u64 j h
  | readString => exact decInv_read_string j h
  | openArray => exact decInv_open_array j h
  | closeArray => exact decInv_close_array j h
  | openObject => exact decInv_open_object j h
  | closeObject => exact decInv_close_object j h
  | endRead => exact decInv_end_read j h
  | beginRead input => exact decInv_begin_read j input h

/-- The invariant and the capacity hold along any operation sequence. -/
theorem decInv_foldl (ops : List CJsonOp) (j : CJson) (h : DecInv j) :
    DecInv (ops.foldl runOp j) ∧ (ops.foldl runOp j).nStates = j.nStates := by
  induction ops generalizing j with
  | nil => exact ⟨h, rfl⟩
  | cons op ops ih =>
    have hstep := decInv_runOp j op h
    have htail := ih (runOp j op) hstep.1
    exact ⟨htail.1, htail.2.trans hstep.2⟩

/-- C4: for every sequence of operations on a decoder constructed with
capacity `max_depth`, the reachable state keeps `level ≤ max_depth`
(hence every stack access at index `level` is inside the fixed
`max_depth + 1`-slot array) and slot 0 of the depth stack always holds
the root state; consequently a close operation at root fails with
`invalidType` instead of popping below the stack. -/
theorem c4_depth_stack_invariant (d : Nat) (ops : List CJsonOp) :
    ((ops.foldl runOp (c_json_new d)).level ≤ d ∧
     (ops.foldl runOp (c_json_new d)).level < (ops.foldl runOp (c_json_new d)).states.length ∧
     (ops.foldl runOp (c_json_new d)).states.getD 0 0 = 0) ∧
    ((ops.foldl runOp (c_json_new d)).poison = none →
     (ops.foldl runOp (c_json_new d)).level = 0 →
     (c_json_close_array (ops.foldl runOp (c_json_new d))).2 = some .invalidType ∧
     (c_json_close_object (ops.foldl runOp (c_json_new d))).2 = some .invalidType) := by
  have h0 : DecInv (c_json_new d) := by
    refine ⟨Nat.zero_le _, by simp [c_json_new], ?_⟩
    simp [c_json_new, List.getD]
  obtain ⟨⟨h1, h2, h3⟩, hn⟩ := decInv_foldl ops (c_json_new d) h0
  have hnd : (ops.foldl runOp (c_json_new d)).nStates = d := hn
  constructor
  · exact ⟨by omega, by omega, h3⟩
  · intro hp hl
    have hs : (ops.foldl runOp (c_json_new d)).states.getD
        (ops.foldl runOp (c_json_new d)).level 0 = 0 := by rw [hl]; exact h3
    constructor
    · simp only [c_json_close_array, hp, hs]
      norm_num
    · simp only [c_json_close_object, hp, hs]
      norm_num

/-- C4 witness: instantiating the invariant for capacity 1 after the
sequence open array, close at root. -/
theorem c4_depth_stack_invariant_witness :
    (([CJsonOp.openArray, CJsonOp.closeArray].foldl runOp (c_json_new 1)).level ≤ 1 ∧
     ([CJsonOp.openArray, CJsonOp.closeArray].foldl runOp (c_json_new 1)).states.getD 0 0 = 0) ∧
    (c_json_close_array (c_json_new 1)).2 = some .invalidType := by
  have ha := c4_depth_stack_invariant 1 [CJsonOp.openArray, CJsonOp.closeArray]
  have hb := c4_depth_stack_invariant 1 []
  exact ⟨⟨ha.1.1, ha.1.2.2⟩, (hb.2 rfl rfl).1⟩

/-- C5: with the structural invariant, on an unpoisoned instance whose
current level is not awaiting an object key and whose cursor is at the
opening bracket, `c_json_open_array` fails with `depthOverflow` exactly
when `level = max_depth`, and succeeds whenever `level < max_depth`;
`c_json_open_object` fails with `depthOverflow` under exactly the same
depth condition. -/
theorem c5_depth_overflow_iff (j : CJson) (h : DecInv j) (hp : j.poison = none)
    (hst : j.states.getD j.level 0 ≠ 0x7B) :
    (cur j.p = 0x5B →
      (((c_json_open_array j).2 = some .depthOverflow) ↔ j.level = j.nStates) ∧
      (j.level < j.nStates → (c_json_open_array j).2 = none)) ∧
    (cur j.p = 0x7B →
      (((c_json_open_object j).2 = some .depthOverflow) ↔ j.level = j.nStates)) := by
  obtain ⟨h1, h2, h3⟩ := h
  constructor
  · intro hcur
    simp only [c_json_open_array, hp, hst, hcur]
    norm_num
    constructor
    · split_ifs with hd
      · simp
        omega
      · simp
        omega
    · intro hlt
      split_ifs with hd
      · omega
      · rfl
  · intro hcur
    simp only [c_json_open_object, hp, hst, hcur]
    norm_num
    split_ifs with hd hq
    · simp
      omega
    · simp
      omega
    · simp
      omega

/-- C5 witness: with capacity 1, opening an array at root succeeds (depth
exactly `max_depth` is reachable) and opening another at level 1 fails
with `depthOverflow`; likewise for an object at level 1. -/
theorem c5_depth_overflow_iff_witness :
    (c_json_open_array (c_json_begin_read (c_json_new 1) [0x5B, 0x5B])).2 = none ∧
    (c_json_open_array ((c_json_open_array (c_json_begin_read (c_json_new 1) [0x5B, 0x5B])).1)).2 =
      some .depthOverflow ∧
    (c_json_open_object ((c_json_open_array (c_json_begin_read (c_json_new 1) [0x5B, 0x7B])).1)).2 =
      some .depthOverflow := by
  refine ⟨?_, ?_, ?_⟩
  · exact ((c5_depth_overflow_iff (c_json_begin_read (c_json_new 1) [0x5B, 0x5B])
      ⟨by decide, by decide, by decide⟩ rfl (by decide)).1 (by decide)).2 (by decide)
  · exact ((c5_depth_overflow_iff ((c_json_open_array (c_json_begin_read (c_json_new 1) [0x5B, 0x5B])).1)
      ⟨by decide, by decide, by decide⟩ (by decide) (by decide)).1 (by decide)).1.mpr (by decide)
  · exact ((c5_depth_overflow_iff ((c_json_open_array (c_json_begin_read (c_json_new 1) [0x5B, 0x7B])).1)
      ⟨by decide, by decide, by decide⟩ (by decide) (by decide)).2 (by decide)).mpr (by decide)

/-- The digit loop of `strtoul` consumes exactly a run of digits and
stops at the first non-digit. -/
theorem digitRun_append (ds rest : List Nat) (acc : Nat)
    (hds : ∀ d ∈ ds, 0x30 ≤ d ∧ d ≤ 0x39)
    (hrest : ¬(0x30 ≤ cur rest ∧ cur rest ≤ 0x39)) :
    (digitRun (ds ++ rest) acc).2 = rest := by
  induction ds generalizing acc with
  | nil =>
    cases rest with
    | nil => rfl
    | cons b r =>
      have hb : ¬(0x30 ≤ b ∧ b ≤ 0x39) := by simpa [cur] using hrest
      simp only [List.nil_append, digitRun]
      rw [if_neg hb]
  | cons d ds ih =>
    simp only [List.cons_append, digitRun]
    rw [if_pos (hds d (List.mem_cons_self d ds))]
    exact ih _ (fun x hx => hds x (List.mem_cons_of_mem d hx))

/-- The function `strtoul` applied to a nonempty digit run followed by a non-digit
converts the run and stops exactly at the non-digit suffix. -/
theorem strtoul10_digits (d0 : Nat) (ds rest : List Nat)
    (hd0 : 0x30 ≤ d0 ∧ d0 ≤ 0x39)
    (hds : ∀ x ∈ ds, 0x30 ≤ x ∧ x ≤ 0x39)
    (hrest : ¬(0x30 ≤ cur rest ∧ cur rest ≤ 0x39)) :
    strtoul10 (d0 :: (ds ++ rest)) =
      some (min (digitRun (d0 :: (ds ++ rest)) 0).1 (2 ^ 64 - 1), rest) := by
  have hdr : (digitRun (d0 :: (ds ++ rest)) 0).2 = rest := by
    have h := digitRun_append (d0 :: ds) rest 0
      (by
        intro x hx
        rcases List.mem_cons.mp hx with h | h
        · exact h ▸ hd0
        · exact hds x h)
      hrest
    simpa using h
  have hc1 : isCSpace d0 = false := by simp [isCSpace]; omega
  have hc2 : ¬(d0 = 0x2B) := by omega
  have hc3 : ¬(d0 = 0x2D) := by omega
  have hc4 : isDigitB d0 = true := by simp [isDigitB]; omega
  simp [strtoul10, List.dropWhile_cons, hc1, hc2, hc3, hc4, cur, hdr]

/-- C6: on an unpoisoned instance, `c_json_read_u64` fails with
`invalidType` (never `invalidJson`, never success) when the byte at the
cursor is `-`, and also fails with `invalidType` when the cursor holds a
nonempty run of decimal digits immediately followed by `.`, `e` or `E`
(a valid JSON number that is not an unsigned integer). -/
theorem c6_read_u64_invalid_type (j : CJson) (hp : j.poison = none) :
    (cur j.p = 0x2D → (c_json_read_u64 j).2 = .error .invalidType) ∧
    (∀ d0 ds rest, (0x30 ≤ d0 ∧ d0 ≤ 0x39) → (∀ x ∈ ds, 0x30 ≤ x ∧ x ≤ 0x39) →
      j.p = d0 :: (ds ++ rest) →
      (cur rest = 0x2E ∨ cur rest = 0x65 ∨ cur rest = 0x45) →
      (c_json_read_u64 j).2 = .error .invalidType) := by
  constructor
  · intro hcur
    simp only [c_json_read_u64, hp, hcur]
    split_ifs <;> rfl
  · intro d0 ds rest hd0 hds hjp htrail
    have hrest : ¬(0x30 ≤ cur rest ∧ cur rest ≤ 0x39) := by omega
    have hs := strtoul10_digits d0 ds rest hd0 hds hrest
    simp only [c_json_read_u64, hp, hjp, hs]
    split_ifs with h1 h2 <;> rfl

/-- C6 witness: reading `1.` fails with `invalidType` via the trailing
dot, and reading `-1` fails with `invalidType` via the leading minus. -/
theorem c6_read_u64_invalid_type_witness :
    (c_json_read_u64 (c_json_begin_read (c_json_new 8) [0x31, 0x2E])).2 = .error .invalidType ∧
    (c_json_read_u64 (c_json_begin_read (c_json_new 8) [0x2D, 0x31])).2 = .error .invalidType := by
  constructor
  · exact (c6_read_u64_invalid_type (c_json_begin_read (c_json_new 8) [0x31, 0x2E]) rfl).2
      0x31 [] [0x2E] (by decide) (by intro x hx; cases hx) (by decide) (by decide)
  · exact (c6_read_u64_invalid_type (c_json_begin_read (c_json_new 8) [0x2D, 0x31]) rfl).1
      (by decide)

/-- C7: for any valid surrogate pair escape `\uXXXX\uYYYY` at the scan
position (four hex digits forming a high surrogate in 0xD800..0xDBFF,
then `\u` and four hex digits forming a low surrogate in 0xDC00..0xDFFF),
the decoder emits exactly the UTF-8 encoding of the combined code point
`0x10000 + (XXXX - 0xD800) * 0x400 + (YYYY - 0xDC00)` before the rest of
the string; in particular a full `c_json_read_string` of the string
`"😀"` yields the 4-byte UTF-8 encoding of U+1F600. -/
theorem c7_surrogate_pair_utf8 :
    (∀ c1 c2 c3 c4 c5 c6 c7 c8 v1 v2 v3 v4 v5 v6 v7 v8 : Nat, ∀ rest : List Nat,
      hexVal c1 = some v1 → hexVal c2 = some v2 → hexVal c3 = some v3 → hexVal c4 = some v4 →
      hexVal c5 = some v5 → hexVal c6 = some v6 → hexVal c7 = some v7 → hexVal c8 = some v8 →
      0xD800 ≤ v1 * 4096 + v2 * 256 + v3 * 16 + v4 →
      v1 * 4096 + v2 * 256 + v3 * 16 + v4 ≤ 0xDBFF →
      0xDC00 ≤ v5 * 4096 + v6 * 256 + v7 * 16 + v8 →
      v5 * 4096 + v6 * 256 + v7 * 16 + v8 ≤ 0xDFFF →
      stringBody (0x5C :: 0x75 :: c1 :: c2 :: c3 :: c4 ::
          0x5C :: 0x75 :: c5 :: c6 :: c7 :: c8 :: rest) =
        match stringBody rest with
        | .ok (out, rem) =>
          .ok (c_json_write_utf8
            (0x10000 + (v1 * 4096 + v2 * 256 + v3 * 16 + v4 - 0xD800) * 0x400 +
              (v5 * 4096 + v6 * 256 + v7 * 16 + v8 - 0xDC00)) ++ out, rem)
        | .error e => .error e) ∧
    (c_json_read_string (c_json_begin_read (c_json_new 8)
        [0x22, 0x5C, 0x75, 0x44, 0x38, 0x33, 0x44, 0x5C, 0x75, 0x44, 0x45, 0x30, 0x30, 0x22])).2 =
      .ok [0xF0, 0x9F, 0x98, 0x80] := by
  constructor
  · intro c1 c2 c3 c4 c5 c6 c7 c8 v1 v2 v3 v4 v5 v6 v7 v8 rest
    intro h1 h2 h3 h4 h5 h6 h7 h8 hhi1 hhi2 hlo1 hlo2
    have hno1 : ¬(v5 * 4096 + v6 * 256 + v7 * 16 + v8 < 0xDC00) := by omega
    have hno2 : ¬(0xDFFF < v5 * 4096 + v6 * 256 + v7 * 16 + v8) := by omega
    simp [stringBody, escByte, readUnitPair, utf16Unit,
          h1, h2, h3, h4, h5, h6, h7, h8, hhi1, hhi2, hno1, hno2]
  · simp [c_json_begin_read, c_json_new, c_json_read_string, c_json_advance,
          stringBody, escByte, readUnitPair, utf16Unit, hexVal, c_json_write_utf8,
          skip_space, cur, setPoison, isJsonSpace, List.replicate, List.getD]
    decide

/-- C7 witness: instantiating the surrogate-pair step at the digits of
`D83D`/`DE00` with a closing quote as rest decodes to the UTF-8 bytes of
U+1F600. -/
theorem c7_surrogate_pair_utf8_witness :
    stringBody [0x5C, 0x75, 0x44, 0x38, 0x33, 0x44, 0x5C, 0x75, 0x44, 0x45, 0x30, 0x30, 0x22] =
      .ok ([0xF0, 0x9F, 0x98, 0x80], []) := by
  have h := c7_surrogate_pair_utf8.1 0x44 0x38 0x33 0x44 0x44 0x45 0x30 0x30
    13 8 3 13 13 14 0 0 [0x22] (by decide) (by decide) (by decide) (by decide)
    (by decide) (by decide) (by decide) (by decide)
    (by decide) (by decide) (by decide) (by decide)
  rw [h]
  simp [stringBody, c_json_write_utf8]
  decide

/-- After a high surrogate unit, the pair decoder yields a code point
only if the continuation is literally `\u` followed by four hex digits
forming a low surrogate: whenever it is anything else (too short, not
`\u`, invalid hex, or a unit outside 0xDC00..0xDFFF), it fails. -/
theorem readUnitPair_high_none (c1 c2 c3 c4 v1 v2 v3 v4 : Nat) (rr : List Nat)
    (h1 : hexVal c1 = some v1) (h2 : hexVal c2 = some v2)
    (h3 : hexVal c3 = some v3) (h4 : hexVal c4 = some v4)
    (hhi1 : 0xD800 ≤ v1 * 4096 + v2 * 256 + v3 * 16 + v4)
    (hhi2 : v1 * 4096 + v2 * 256 + v3 * 16 + v4 ≤ 0xDBFF)
    (hnol : ∀ z1 z2 z3 z4 r2 w, rr = 0x5C :: 0x75 :: z1 :: z2 :: z3 :: z4 :: r2 →
        utf16Unit z1 z2 z3 z4 = some w → w < 0xDC00 ∨ 0xDFFF < w) :
    readUnitPair (c1 :: c2 :: c3 :: c4 :: rr) = none := by
  simp only [readUnitPair, utf16Unit, h1, h2, h3, h4]
  rw [if_pos ⟨hhi1, hhi2⟩]
  split
  · rename_i y1 y2 rr2
    split_ifs with hyu
    · obtain ⟨hy1, hy2⟩ := hyu
      subst hy1
      subst hy2
      split
      · rename_i z1 z2 z3 z4 r2
        split
        · rfl
        · rename_i w heq3
          rw [if_pos (hnol z1 z2 z3 z4 r2 w rfl heq3)]
      · rfl
    · rfl
  · rfl

/-- C8: `c_json_read_string` fails with `invalidJson` on every unpaired
surrogate escape: a lone low surrogate escape (0xDC00..0xDFFF, any
continuation); a high surrogate escape (0xD800..0xDBFF) whose
continuation is not literally `\u` followed by four hex digits forming a
low surrogate — covering a closing quote right after it, bytes other
than `\u`, truncated or invalid hex, and a unit outside 0xDC00..0xDFFF;
and the failure of the scan loop surfaces as the `invalidJson` result
(and latch) of `c_json_read_string`. -/
theorem c8_unpaired_surrogate_invalid_json :
    (∀ c1 c2 c3 c4 v1 v2 v3 v4 : Nat, ∀ rest : List Nat,
      hexVal c1 = some v1 → hexVal c2 = some v2 → hexVal c3 = some v3 → hexVal c4 = some v4 →
      0xDC00 ≤ v1 * 4096 + v2 * 256 + v3 * 16 + v4 →
      v1 * 4096 + v2 * 256 + v3 * 16 + v4 ≤ 0xDFFF →
      stringBody (0x5C :: 0x75 :: c1 :: c2 :: c3 :: c4 :: rest) = .error .invalidJson) ∧
    (∀ c1 c2 c3 c4 v1 v2 v3 v4 : Nat, ∀ rr : List Nat,
      hexVal c1 = some v1 → hexVal c2 = some v2 → hexVal c3 = some v3 → hexVal c4 = some v4 →
      0xD800 ≤ v1 * 4096 + v2 * 256 + v3 * 16 + v4 →
      v1 * 4096 + v2 * 256 + v3 * 16 + v4 ≤ 0xDBFF →
      (∀ z1 z2 z3 z4 r2 w, rr = 0x5C :: 0x75 :: z1 :: z2 :: z3 :: z4 :: r2 →
        utf16Unit z1 z2 z3 z4 = some w → w < 0xDC00 ∨ 0xDFFF < w) →
      stringBody (0x5C :: 0x75 :: c1 :: c2 :: c3 :: c4 :: rr) = .error .invalidJson) ∧
    (∀ (j : CJson) (rest : List Nat), j.poison = none → j.p = 0x22 :: rest →
      stringBody rest = .error .invalidJson →
      (c_json_read_string j).2 = .error .invalidJson ∧
      (c_json_read_string j).1.poison = some .invalidJson) := by
  refine ⟨?_, ?_, ?_⟩
  · intro c1 c2 c3 c4 v1 v2 v3 v4 rest h1 h2 h3 h4 hlo1 hlo2
    have hnhi : ¬(0xD800 ≤ v1 * 4096 + v2 * 256 + v3 * 16 + v4 ∧
        v1 * 4096 + v2 * 256 + v3 * 16 + v4 ≤ 0xDBFF) := by omega
    simp [stringBody, escByte, readUnitPair, utf16Unit, h1, h2, h3, h4, hnhi, hlo1, hlo2]
  · intro c1 c2 c3 c4 v1 v2 v3 v4 rr h1 h2 h3 h4 hhi1 hhi2 hnol
    have hnone := readUnitPair_high_none c1 c2 c3 c4 v1 v2 v3 v4 rr
      h1 h2 h3 h4 hhi1 hhi2 hnol
    simp [stringBody, escByte, hnone]
  · intro j rest hp hjp hsb
    constructor
    · simp [c_json_read_string, hp, hjp, hsb, cur, setPoison]
    · simp [c_json_read_string, hp, hjp, hsb, cur, setPoison]

/-- C8 witness: the full reads of the lone high surrogate string
`"\uD800"` (only the closing quote follows the escape) and of the lone
low surrogate string `"\uDC00"` both fail with `invalidJson`, via the
general high- and low-surrogate cases and the lift to
`c_json_read_string`. -/
theorem c8_unpaired_surrogate_invalid_json_witness :
    (c_json_read_string (c_json_begin_read (c_json_new 8)
        [0x22, 0x5C, 0x75, 0x44, 0x38, 0x30, 0x30, 0x22])).2 = .error .invalidJson ∧
    (c_json_read_string (c_json_begin_read (c_json_new 8)
        [0x22, 0x5C, 0x75, 0x44, 0x43, 0x30, 0x30, 0x22])).2 = .error .invalidJson := by
  constructor
  · have hb := c8_unpaired_surrogate_invalid_json.2.1 0x44 0x38 0x30 0x30 13 8 0 0 [0x22]
      (by decide) (by decide) (by decide) (by decide) (by decide) (by decide)
      (by intro z1 z2 z3 z4 r2 w hshape hw; simp at hshape)
    exact (c8_unpaired_surrogate_invalid_json.2.2
      (c_json_begin_read (c_json_new 8)
        [0x22, 0x5C, 0x75, 0x44, 0x38, 0x30, 0x30, 0x22])
      [0x5C, 0x75, 0x44, 0x38, 0x30, 0x30, 0x22] rfl (by decide) hb).1
  · have ha := c8_unpaired_surrogate_invalid_json.1 0x44 0x43 0x30 0x30 13 12 0 0 [0x22]
      (by decide) (by decide) (by decide) (by decide) (by decide) (by decide)
    exact (c8_unpaired_surrogate_invalid_json.2.2
      (c_json_begin_read (c_json_new 8)
        [0x22, 0x5C, 0x75, 0x44, 0x43, 0x30, 0x30, 0x22])
      [0x5C, 0x75, 0x44, 0x43, 0x30, 0x30, 0x22] rfl (by decide) ha).1
